import Mathlib

/-
  Verification development for the BaconPausableStream repository.

  The source under scrutiny is src/src/index.js: createPausableStream wraps a
  zero-argument callback producer (called generatorFunction in the source) in a
  Bacon.fromBinder stream whose production can be paused and resumed.

  Shallow embedding used throughout this file:

  * The mutable closure variables of createPausableStream (paused, hasEnded)
    together with the scheduling and delivery context are collected in a
    PumpState record.
      - paused : Option Bool mirrors the source variable that starts as null
        (none) and later holding a boolean (some b).
      - hasEnded : Bool mirrors the hasEnded flag set by pauseSink.
      - pullCount : Nat counts invocations of the producer
        (generatorFunction()).
      - pending : Nat counts the microtasks currently scheduled by
        repeatUntilPaused via Promise.resolve().then.  Every active loop chain
        has exactly one scheduled microtask (its next iteration) at any time
        and every such microtask runs the same closure, so a count is a
        faithful model of the queue; pending is therefore also the number of
        concurrently active pump loops.
      - delivered : List (Ev A) is the sequence of events passed to the Bacon
        sink, in order.  Bacon forwards sink events to subscribers in order,
        so this is the delivered sequence observed by a subscriber.
      - errors : the sequence of error events pushed to the standard Bacon
        error channel (sink receiving a Bacon.Error).  The source never
        constructs a Bacon.Error, so no transition of the model appends to it.
      - subscribers : Nat is framework-side subscriber bookkeeping.  The pump
        code never consults it; it is carried to make that fact statable.

  * The producer is a function gen : Nat -> GenRes A giving the outcome of the
    k-th call of generatorFunction(): an ordinary value, the Bacon.End
    sentinel, or a raised exception.

  * onPauseValue is the pauseProperty.onValue handler (source lines 75 to 87).
    Pause commands issued from inside a delivery callback run synchronously
    during sink delivery, so one iteration of repeatUntilPaused is modelled by
    repeatStep gen cmds, where cmds is the list of pause values pushed from
    within the delivery callbacks of that event (true for pause(), false for
    resume()).  Commands issued while no iteration is executing are separate
    steps (Act.cmd).

  * repeatStep models one scheduled iteration of repeatUntilPaused (source
    lines 107 to 118) combined with pauseSink (lines 62 to 71): consume one
    scheduled microtask, call the producer, latch hasEnded when the event is
    an End event, forward the event to the sink (running subscriber callbacks
    and hence cmds), and reschedule exactly when !paused && !hasEnded holds
    afterwards.  A producer throw aborts the then-callback before delivery and
    before the reschedule check; the resulting promise rejection is observed
    by nobody in the source.
-/

namespace BaconPausable

/-- A Bacon event forwarded to the sink: either an ordinary value or the
Bacon.End sentinel. -/
inductive Ev (A : Type) where
  | val (v : A)
  | endEv
deriving DecidableEq, Repr

/-- Sentinel detection, modelling the check streamEvent.isEnd() for values on
which property access is legal. -/
def Ev.isEnd {A : Type} : Ev A → Bool
  | .endEv => true
  | .val _ => false

/-- Outcome of one call of the callback producer generatorFunction: an
ordinary value, the end sentinel, or a raised exception. -/
inductive GenRes (A : Type) where
  | val (v : A)
  | endEv
  | thrown
deriving DecidableEq, Repr

/-- The state of one pausable stream instance after subscription, packaging
the closure variables of createPausableStream together with the scheduling and
delivery context.  See the header comment for the meaning of each field. -/
structure PumpState (A : Type) where
  paused : Option Bool
  hasEnded : Bool
  pullCount : Nat
  pending : Nat
  delivered : List (Ev A)
  errors : List (Ev A)
  subscribers : Nat
deriving DecidableEq, Repr

/-- Truthiness of the source variable paused (null, true or false): JS treats
null as falsy, so !paused is true exactly when paused is null or false. -/
def isTruthy : Option Bool → Bool
  | none => false
  | some b => b

@[simp] theorem isTruthy_none : isTruthy none = false := rfl

@[simp] theorem isTruthy_some (b : Bool) : isTruthy (some b) = b := rfl

/-- The pauseProperty.onValue handler from source lines 75 to 87: when the
received pauseValue differs from the stored paused value, store it, and when
the new value is unpaused and the stream has not ended, start a new
repeatUntilPaused chain, which immediately schedules one microtask. -/
def onPauseValue {A : Type} (s : PumpState A) (pauseValue : Bool) : PumpState A :=
  if s.paused = some pauseValue then s
  else
    let s1 := { s with paused := some pauseValue }
    if !pauseValue && !s1.hasEnded then { s1 with pending := s1.pending + 1 } else s1

/-- Shared tail of one loop iteration after the producer returned event ev:
pauseSink latches hasEnded when ev is an End event and forwards ev to the
sink; the subscriber callbacks run synchronously and issue the pause commands
cmds; afterwards the iteration reschedules exactly when !paused && !hasEnded
holds (source line 114). -/
def forwardEvent {A : Type} (s : PumpState A) (ev : Ev A) (cmds : List Bool) :
    PumpState A :=
  let s1 := { s with hasEnded := s.hasEnded || ev.isEnd,
                     delivered := s.delivered ++ [ev] }
  let s2 := cmds.foldl onPauseValue s1
  if !(isTruthy s2.paused) && !s2.hasEnded then { s2 with pending := s2.pending + 1 }
  else s2

/-- One scheduled iteration of repeatUntilPaused (source lines 107 to 118): if
no microtask is queued nothing happens; otherwise one queued microtask runs:
it calls the producer, and on an ordinary outcome forwards the event (during
which the subscriber callbacks issue cmds) and reschedules when appropriate.
A thrown pull aborts the then-callback after the call itself: nothing is
delivered, no command runs, nothing is rescheduled and no error event is
pushed anywhere, because the source has no catch handler and never constructs
a Bacon.Error. -/
def repeatStep {A : Type} (gen : Nat → GenRes A) (cmds : List Bool)
    (s : PumpState A) : PumpState A :=
  if s.pending = 0 then s
  else
    let s0 := { s with pending := s.pending - 1, pullCount := s.pullCount + 1 }
    match gen s.pullCount with
    | .thrown => s0
    | .val v => forwardEvent s0 (Ev.val v) cmds
    | .endEv => forwardEvent s0 Ev.endEv cmds

/-- An action on a stream instance visible from outside: a pause command
pushed while no iteration is executing, or one scheduled loop iteration whose
delivery callbacks push the commands cmds. -/
inductive Act where
  | cmd (b : Bool)
  | iter (cmds : List Bool)
deriving DecidableEq, Repr

/-- One action step. -/
def stepAct {A : Type} (gen : Nat → GenRes A) (s : PumpState A) : Act → PumpState A
  | .cmd b => onPauseValue s b
  | .iter cmds => repeatStep gen cmds s

/-- Run a list of actions in order. -/
def runActs {A : Type} (gen : Nat → GenRes A) (s : PumpState A)
    (acts : List Act) : PumpState A :=
  acts.foldl (stepAct gen) s

/-- Run n scheduled loop iterations with no commands issued from delivery
callbacks. -/
def runPlain {A : Type} (gen : Nat → GenRes A) : Nat → PumpState A → PumpState A
  | 0, s => s
  | n + 1, s => runPlain gen n (repeatStep gen [] s)

/-- The producer derived from a finite sequence S of ordinary values: the k-th
call returns the k-th value of S, and every call after S is exhausted returns
the end sentinel. -/
def genOfList {A : Type} : List A → Nat → GenRes A
  | [], _ => .endEv
  | v :: _, 0 => .val v
  | _ :: t, k + 1 => genOfList t k

/-- The state of a freshly created stream before the binder has run: paused is
the source value null, nothing has happened yet, and one subscriber is
attached (the subscription that made the binder run). -/
def initState (A : Type) : PumpState A :=
  { paused := none, hasEnded := false, pullCount := 0, pending := 0,
    delivered := [], errors := [], subscribers := 1 }

/-- Subscribing to a stream created with initiallyPaused = false: the binder
runs, pauseProperty.onValue delivers the initial value false to the handler,
which stores it and starts the first loop chain. -/
def startState (A : Type) : PumpState A :=
  onPauseValue (initState A) false

/- ------------------------------------------------------------------ -/
/- Basic reduction lemmas.                                            -/
/- ------------------------------------------------------------------ -/

theorem startState_eq (A : Type) :
    startState A = ⟨some false, false, 0, 1, [], [], 1⟩ := rfl

theorem onPauseValue_noop {A : Type} {s : PumpState A} {b : Bool}
    (h : s.paused = some b) : onPauseValue s b = s := by
  simp [onPauseValue, h]

theorem repeatStep_pending_zero {A : Type} (gen : Nat → GenRes A)
    (cmds : List Bool) {s : PumpState A} (h : s.pending = 0) :
    repeatStep gen cmds s = s := by
  simp [repeatStep, h]

theorem runPlain_succ {A : Type} (gen : Nat → GenRes A) (n : Nat)
    (s : PumpState A) :
    runPlain gen (n + 1) s = runPlain gen n (repeatStep gen [] s) := rfl

theorem runPlain_fix {A : Type} (gen : Nat → GenRes A) {s : PumpState A}
    (h : s.pending = 0) : ∀ n, runPlain gen n s = s := by
  intro n
  induction n with
  | zero => rfl
  | succ m ih => rw [runPlain_succ, repeatStep_pending_zero gen [] h, ih]

theorem runPlain_add {A : Type} (gen : Nat → GenRes A) (a b : Nat)
    (s : PumpState A) :
    runPlain gen (a + b) s = runPlain gen b (runPlain gen a s) := by
  induction a generalizing s with
  | zero => simp [runPlain]
  | succ m ih =>
      have h1 : m + 1 + b = (m + b) + 1 := by omega
      rw [h1, runPlain_succ, runPlain_succ, ih]

theorem genOfList_val {A : Type} :
    ∀ (S : List A) (i : Nat) (h : i < S.length), genOfList S i = .val S[i]
  | v :: _, 0, _ => rfl
  | _ :: t, i + 1, h => by
      have ht : i < t.length := by simpa using h
      simpa [genOfList] using genOfList_val t i ht

theorem genOfList_end {A : Type} :
    ∀ (S : List A) (i : Nat), S.length ≤ i → genOfList S i = .endEv
  | [], _, _ => rfl
  | _ :: t, i + 1, h => by
      have ht : t.length ≤ i := by simpa using h
      simpa [genOfList] using genOfList_end t i ht

/-- One running iteration on an ordinary value: the queued microtask pulls the
value, forwards it, no command is issued, and the iteration reschedules. -/
theorem repeatStep_plain_val {A : Type} (gen : Nat → GenRes A) (i : Nat)
    (v : A) (hgen : gen i = .val v) (D E : List (Ev A)) (m : Nat) :
    repeatStep gen [] ⟨some false, false, i, 1, D, E, m⟩ =
      ⟨some false, false, i + 1, 1, D ++ [Ev.val v], E, m⟩ := by
  simp [repeatStep, hgen, forwardEvent, Ev.isEnd]

/-- One running iteration on the end sentinel: hasEnded is latched before the
event is forwarded and the iteration does not reschedule. -/
theorem repeatStep_plain_end {A : Type} (gen : Nat → GenRes A) (i : Nat)
    (hgen : gen i = .endEv) (D E : List (Ev A)) (m : Nat) :
    repeatStep gen [] ⟨some false, false, i, 1, D, E, m⟩ =
      ⟨some false, true, i + 1, 0, D ++ [Ev.endEv], E, m⟩ := by
  simp [repeatStep, hgen, forwardEvent, Ev.isEnd]

/-- Running the loop j plain iterations from a running state at pull position
i delivers the next j values of S in order and keeps exactly one scheduled
microtask. -/
theorem runPlain_running {A : Type} (S : List A) :
    ∀ (j i : Nat), i + j ≤ S.length → ∀ (D E : List (Ev A)) (m : Nat),
    runPlain (genOfList S) j ⟨some false, false, i, 1, D, E, m⟩ =
      ⟨some false, false, i + j, 1,
        D ++ ((S.drop i).take j).map Ev.val, E, m⟩ := by
  intro j
  induction j with
  | zero => intro i _ D E m; simp [runPlain]
  | succ n ih =>
      intro i h D E m
      have hi : i < S.length := by omega
      rw [runPlain_succ,
        repeatStep_plain_val (genOfList S) i S[i] (genOfList_val S i hi) D E m,
        ih (i + 1) (by omega) (D ++ [Ev.val S[i]]) E m]
      have hdrop : S.drop i = S[i] :: S.drop (i + 1) :=
        List.drop_eq_getElem_cons hi
      rw [hdrop]
      simp [List.take_succ_cons]
      refine ⟨by omega, ?_⟩
      have hmap : List.drop i (List.map Ev.val S) =
          Ev.val S[i] :: List.drop (i + 1) (List.map Ev.val S) := by
        rw [List.drop_eq_getElem_cons (l := List.map Ev.val S) (by simpa using hi)]
        simp
      rw [hmap, List.take_succ_cons]

/-- Running the loop to completion from a running state at pull position i:
the remaining values of S are delivered in order, then the sentinel is pulled,
hasEnded is latched, the sentinel is forwarded and the loop stops. -/
theorem runPlain_toEnd {A : Type} (S : List A) (i : Nat) (h : i ≤ S.length)
    (D E : List (Ev A)) (m : Nat) :
    runPlain (genOfList S) (S.length - i + 1) ⟨some false, false, i, 1, D, E, m⟩ =
      ⟨some false, true, S.length + 1, 0,
        D ++ ((S.drop i).map Ev.val ++ [Ev.endEv]), E, m⟩ := by
  rw [runPlain_add, runPlain_running S (S.length - i) i (by omega) D E m]
  have h1 : i + (S.length - i) = S.length := by omega
  have h2 : (S.drop i).take (S.length - i) = S.drop i := by
    apply List.take_of_length_le
    simp
  rw [h1, h2, runPlain_succ,
    repeatStep_plain_end (genOfList S) S.length (genOfList_end S S.length le_rfl) _ E m]
  simp [runPlain]

/- ------------------------------------------------------------------ -/
/- C1: delivery without pause or resume.                              -/
/- ------------------------------------------------------------------ -/

/-- C1: for every finite sequence S of events that a callback producer yields
before returning the end sentinel, subscribing to the stream created by
createPausableStream with no pause() or resume() calls delivers exactly the
events of S, in the order the producer yielded them, followed by exactly one
termination signal; afterwards nothing further happens. -/
theorem C1_subscribe_delivers_sequence_then_end {A : Type} (S : List A) :
    (runPlain (genOfList S) (S.length + 1) (startState A)).delivered
        = S.map Ev.val ++ [Ev.endEv]
  ∧ ((runPlain (genOfList S) (S.length + 1) (startState A)).delivered.countP
        Ev.isEnd) = 1
  ∧ (runPlain (genOfList S) (S.length + 1) (startState A)).hasEnded = true
  ∧ ∀ n, runPlain (genOfList S) n (runPlain (genOfList S) (S.length + 1) (startState A))
        = runPlain (genOfList S) (S.length + 1) (startState A) := by
  have hrun : runPlain (genOfList S) (S.length + 1) (startState A) =
      ⟨some false, true, S.length + 1, 0, S.map Ev.val ++ [Ev.endEv], [], 1⟩ := by
    have h := runPlain_toEnd S 0 (Nat.zero_le _) [] [] 1
    simpa [startState_eq] using h
  refine ⟨by rw [hrun], ?_, by rw [hrun], ?_⟩
  · rw [hrun]
    simp [List.countP_append, List.countP_map, Function.comp_def, Ev.isEnd,
      List.countP_cons]
  · intro n
    rw [hrun]
    exact runPlain_fix (genOfList S) rfl n

example :
    (runPlain (genOfList [10, 20]) 3 (startState Nat)).delivered
      = [Ev.val 10, Ev.val 20, Ev.endEv] := by decide

/- ------------------------------------------------------------------ -/
/- C3: no pulls after the end sentinel.                               -/
/- ------------------------------------------------------------------ -/

theorem stepAct_ended {A : Type} (gen : Nat → GenRes A) (s : PumpState A)
    (a : Act) (he : s.hasEnded = true) (hp : s.pending = 0) :
    (stepAct gen s a).hasEnded = true ∧ (stepAct gen s a).pending = 0 ∧
    (stepAct gen s a).pullCount = s.pullCount ∧
    (stepAct gen s a).delivered = s.delivered := by
  cases a with
  | cmd b => simp [stepAct, onPauseValue, he, hp]; split <;> simp [he, hp]
  | iter cmds => simp [stepAct, repeatStep, hp, he]

theorem runActs_cons {A : Type} (gen : Nat → GenRes A) (s : PumpState A)
    (a : Act) (rest : List Act) :
    runActs gen s (a :: rest) = runActs gen (stepAct gen s a) rest := rfl

theorem runActs_ended {A : Type} (gen : Nat → GenRes A) :
    ∀ (acts : List Act) (s : PumpState A), s.hasEnded = true → s.pending = 0 →
    (runActs gen s acts).hasEnded = true ∧ (runActs gen s acts).pending = 0 ∧
    (runActs gen s acts).pullCount = s.pullCount ∧
    (runActs gen s acts).delivered = s.delivered
  | [], s, he, hp => ⟨he, hp, rfl, rfl⟩
  | a :: rest, s, he, hp => by
      obtain ⟨h1, h2, h3, h4⟩ := stepAct_ended gen s a he hp
      obtain ⟨g1, g2, g3, g4⟩ := runActs_ended gen rest (stepAct gen s a) h1 h2
      rw [runActs_cons]
      exact ⟨g1, g2, by rw [g3, h3], by rw [g4, h4]⟩

/-- The handler never touches hasEnded, pullCount or delivered, and once the
stream has ended it never queues a loop iteration either, since starting a
chain requires !hasEnded. -/
theorem onPauseValue_keeps {A : Type} (s : PumpState A) (b : Bool) :
    (onPauseValue s b).hasEnded = s.hasEnded
  ∧ (onPauseValue s b).pullCount = s.pullCount
  ∧ (onPauseValue s b).delivered = s.delivered
  ∧ (s.hasEnded = true → (onPauseValue s b).pending = s.pending) := by
  by_cases h : s.paused = some b
  · rw [onPauseValue_noop h]
    exact ⟨rfl, rfl, rfl, fun _ => rfl⟩
  · simp only [onPauseValue, if_neg h]
    split
    · next hcond =>
        refine ⟨rfl, rfl, rfl, fun he => ?_⟩
        simp [he] at hcond
    · exact ⟨rfl, rfl, rfl, fun _ => rfl⟩

theorem foldl_onPauseValue_keeps {A : Type} (cmds : List Bool) :
    ∀ (s : PumpState A),
    (cmds.foldl onPauseValue s).hasEnded = s.hasEnded
  ∧ (cmds.foldl onPauseValue s).pullCount = s.pullCount
  ∧ (cmds.foldl onPauseValue s).delivered = s.delivered
  ∧ (s.hasEnded = true → (cmds.foldl onPauseValue s).pending = s.pending) := by
  induction cmds with
  | nil => intro s; exact ⟨rfl, rfl, rfl, fun _ => rfl⟩
  | cons c rest ih =>
      intro s
      obtain ⟨h1, h2, h3, h4⟩ := onPauseValue_keeps s c
      obtain ⟨g1, g2, g3, g4⟩ := ih (onPauseValue s c)
      refine ⟨by rw [List.foldl_cons, g1, h1], by rw [List.foldl_cons, g2, h2],
        by rw [List.foldl_cons, g3, h3], fun he => ?_⟩
      rw [List.foldl_cons, g4 (by rw [h1, he]), h4 he]

/-- Forwarding any event to a stream that has already ended keeps the ended
flag, performs no extra pull and does not reschedule: the post-delivery check
!paused && !hasEnded fails, and any commands issued during the delivery
cannot start a chain either. -/
theorem forwardEvent_after_end {A : Type} (s : PumpState A) (ev : Ev A)
    (cmds : List Bool) (he : s.hasEnded = true) :
    (forwardEvent s ev cmds).hasEnded = true
  ∧ (forwardEvent s ev cmds).pullCount = s.pullCount
  ∧ (forwardEvent s ev cmds).pending = s.pending := by
  unfold forwardEvent
  dsimp only
  have hs1 : ({ s with
                  hasEnded := s.hasEnded || ev.isEnd,
                  delivered := s.delivered ++ [ev] } : PumpState A).hasEnded = true := by
    show (s.hasEnded || ev.isEnd) = true
    rw [he, Bool.true_or]
  obtain ⟨f1, f2, _, f4⟩ := foldl_onPauseValue_keeps cmds
    ({ s with
         hasEnded := s.hasEnded || ev.isEnd,
         delivered := s.delivered ++ [ev] } : PumpState A)
  have hs2 : (cmds.foldl onPauseValue
      { s with
          hasEnded := s.hasEnded || ev.isEnd,
          delivered := s.delivered ++ [ev] }).hasEnded = true := by
    rw [f1]; exact hs1
  split
  · next hcond =>
      rw [hs2] at hcond
      simp at hcond
  · refine ⟨hs2, ?_, ?_⟩
    · rw [f2]
    · rw [f4 hs1]

/-- One scheduled iteration running on an already-ended stream still pulls
the producer once (the then-callback in repeatUntilPaused calls func() with
no hasEnded guard before the check), consumes its queue slot and never
reschedules. -/
theorem repeatStep_after_end {A : Type} (gen : Nat → GenRes A)
    (cmds : List Bool) (s : PumpState A)
    (he : s.hasEnded = true) (hp : s.pending ≠ 0) :
    (repeatStep gen cmds s).hasEnded = true
  ∧ (repeatStep gen cmds s).pullCount = s.pullCount + 1
  ∧ (repeatStep gen cmds s).pending = s.pending - 1 := by
  unfold repeatStep
  rw [if_neg hp]
  cases hgen : gen s.pullCount with
  | thrown => exact ⟨he, rfl, rfl⟩
  | val v => exact forwardEvent_after_end _ (Ev.val v) cmds he
  | endEv => exact forwardEvent_after_end _ Ev.endEv cmds he

theorem runActs_after_end {A : Type} (gen : Nat → GenRes A) :
    ∀ (acts : List Act) (s : PumpState A), s.hasEnded = true →
    (runActs gen s acts).hasEnded = true
  ∧ (runActs gen s acts).pullCount + (runActs gen s acts).pending
      ≤ s.pullCount + s.pending
  | [], _, he => ⟨he, le_refl _⟩
  | a :: rest, s, he => by
      have hstep : (stepAct gen s a).hasEnded = true
          ∧ (stepAct gen s a).pullCount + (stepAct gen s a).pending
              ≤ s.pullCount + s.pending := by
        cases a with
        | cmd b =>
            obtain ⟨h1, h2, _, h4⟩ := onPauseValue_keeps s b
            refine ⟨?_, ?_⟩
            · show (onPauseValue s b).hasEnded = true
              rw [h1]; exact he
            · show (onPauseValue s b).pullCount + (onPauseValue s b).pending
                  ≤ s.pullCount + s.pending
              rw [h2, h4 he]
        | iter cmds =>
            by_cases hp : s.pending = 0
            · show (repeatStep gen cmds s).hasEnded = true
                ∧ (repeatStep gen cmds s).pullCount + (repeatStep gen cmds s).pending
                    ≤ s.pullCount + s.pending
              rw [repeatStep_pending_zero gen cmds hp]
              exact ⟨he, le_refl _⟩
            · obtain ⟨h1, h2, h3⟩ := repeatStep_after_end gen cmds s he hp
              show (repeatStep gen cmds s).hasEnded = true
                ∧ (repeatStep gen cmds s).pullCount + (repeatStep gen cmds s).pending
                    ≤ s.pullCount + s.pending
              rw [h2, h3]
              exact ⟨h1, by omega⟩
      obtain ⟨he1, hb1⟩ := hstep
      obtain ⟨ge1, gb1⟩ := runActs_after_end gen rest (stepAct gen s a) he1
      rw [runActs_cons]
      exact ⟨ge1, le_trans gb1 hb1⟩

/-- C3 counterexample: through the two-chain scenario (an effective pause
followed by an effective resume inside the first delivery callback) the
stream reaches a state in which the end sentinel has been forwarded and the
ended flag is latched while one loop iteration is still queued; with no
further pause() or resume() call at all, that leftover iteration then calls
the producer once more, so after the Ended state of the claim is reached the
producer IS pulled again.  This refutes the claim that once the sentinel has
been forwarded and the flag latched the producer is never pulled again. -/
theorem C3_counterexample :
    (runPlain (genOfList [0]) 1
        (repeatStep (genOfList [0]) [true, false] (startState Nat))).hasEnded = true
  ∧ (runPlain (genOfList [0]) 1
        (repeatStep (genOfList [0]) [true, false] (startState Nat))).delivered
      = [Ev.val 0, Ev.endEv]
  ∧ (runPlain (genOfList [0]) 1
        (repeatStep (genOfList [0]) [true, false] (startState Nat))).pending = 1
  ∧ (runPlain (genOfList [0]) 2
        (repeatStep (genOfList [0]) [true, false] (startState Nat))).pullCount
      = (runPlain (genOfList [0]) 1
          (repeatStep (genOfList [0]) [true, false] (startState Nat))).pullCount + 1
  := by decide

/-- C3 amended: once the ended flag is latched it stays latched, and no
subsequent pause() or resume() call ever queues a loop iteration or a pull;
the only pulls that can still happen come from iterations already queued when
the end was reached, each performing exactly one, so the total of future
pulls is bounded by the queued-iteration count.  In particular when no
iteration is still queued (the normal single-chain situation after the
sentinel is forwarded) the producer is never pulled again and nothing
further is delivered, regardless of which pause()/resume() calls and
iterations follow, in any order. -/
theorem C3_after_end_no_new_pulls {A : Type} (gen : Nat → GenRes A)
    (s : PumpState A) (acts : List Act) (he : s.hasEnded = true) :
    (runActs gen s acts).hasEnded = true
  ∧ (runActs gen s acts).pullCount ≤ s.pullCount + s.pending
  ∧ (∀ b, (onPauseValue s b).pending = s.pending
        ∧ (onPauseValue s b).pullCount = s.pullCount)
  ∧ (s.pending = 0 →
        (runActs gen s acts).pullCount = s.pullCount
      ∧ (runActs gen s acts).delivered = s.delivered) := by
  obtain ⟨h1, h2⟩ := runActs_after_end gen acts s he
  refine ⟨h1, by omega, ?_, ?_⟩
  · intro b
    obtain ⟨_, hc2, _, hc4⟩ := onPauseValue_keeps s b
    exact ⟨hc4 he, hc2⟩
  · intro hp
    obtain ⟨_, _, g3, g4⟩ := runActs_ended gen acts s he hp
    exact ⟨g3, g4⟩

theorem C3_amended_witness :
    (runActs (genOfList [0])
      (⟨some false, true, 2, 1, [Ev.val 0, Ev.endEv], [], 1⟩ : PumpState Nat)
      [Act.cmd true, Act.cmd false, Act.iter []]).pullCount ≤ 2 + 1 :=
  (C3_after_end_no_new_pulls (genOfList [0])
    (⟨some false, true, 2, 1, [Ev.val 0, Ev.endEv], [], 1⟩ : PumpState Nat)
    [Act.cmd true, Act.cmd false, Act.iter []] rfl).2.1

/- ------------------------------------------------------------------ -/
/- C7: idempotence of pause and of resume.                            -/
/- ------------------------------------------------------------------ -/

/-- Issuing the same pause value n times in a row, modelling n consecutive
pause() calls (b = true) or n consecutive resume() calls (b = false). -/
def repCmd {A : Type} (b : Bool) : Nat → PumpState A → PumpState A
  | 0, s => s
  | n + 1, s => repCmd b n (onPauseValue s b)

theorem onPauseValue_idem {A : Type} (s : PumpState A) (b : Bool) :
    onPauseValue (onPauseValue s b) b = onPauseValue s b := by
  by_cases h : s.paused = some b
  · rw [onPauseValue_noop h]
    exact onPauseValue_noop h
  · have h2 : (onPauseValue s b).paused = some b := by
      simp [onPauseValue, h]
      split <;> rfl
    rw [onPauseValue_noop h2]

/-- C7: for every n at least 1 and every stream state, issuing pause() n
consecutive times yields the same state (hence the same delivered sequence,
the same scheduled iterations and the same control flags) as issuing pause()
once, and likewise for resume(); a call that does not change the pause value
is a complete no-op. -/
theorem C7_repeated_cmd_equals_single {A : Type} (s : PumpState A) (b : Bool)
    (n : Nat) (h : 1 ≤ n) :
    repCmd b n s = onPauseValue s b := by
  obtain ⟨m, rfl⟩ : ∃ m, n = m + 1 := ⟨n - 1, by omega⟩
  clear h
  induction m generalizing s with
  | zero => rfl
  | succ k ih =>
      calc repCmd b (k + 1 + 1) s = repCmd b (k + 1) (onPauseValue s b) := rfl
        _ = onPauseValue (onPauseValue s b) b := ih (onPauseValue s b)
        _ = onPauseValue s b := onPauseValue_idem s b

theorem C7_witness :
    repCmd true 3 (startState Nat) = onPauseValue (startState Nat) true :=
  C7_repeated_cmd_equals_single (startState Nat) true 3 (by decide)

/- ------------------------------------------------------------------ -/
/- C2: pause issued from within the delivery callback.                -/
/- ------------------------------------------------------------------ -/

/-- One running iteration on an ordinary value during whose delivery callback
the subscriber calls pause(): the event is still forwarded (the pull has
already happened), the handler stores paused = true without starting a loop,
and the iteration then does not reschedule. -/
theorem repeatStep_pause_val {A : Type} (gen : Nat → GenRes A) (i : Nat)
    (v : A) (hgen : gen i = .val v) (D E : List (Ev A)) (m : Nat) :
    repeatStep gen [true] ⟨some false, false, i, 1, D, E, m⟩ =
      ⟨some true, false, i + 1, 0, D ++ [Ev.val v], E, m⟩ := by
  simp [repeatStep, hgen, forwardEvent, Ev.isEnd, onPauseValue]

/-- The state reached from a fresh unpaused subscription by letting the loop
run freely and having the subscriber call pause() from inside the delivery
callback of the k-th delivered event. -/
def pausedAtK {A : Type} (S : List A) (k : Nat) : PumpState A :=
  repeatStep (genOfList S) [true] (runPlain (genOfList S) (k - 1) (startState A))

theorem pausedAtK_eq {A : Type} (S : List A) (k : Nat) (h1 : 1 ≤ k)
    (h2 : k ≤ S.length) :
    pausedAtK S k = ⟨some true, false, k, 0, (S.take k).map Ev.val, [], 1⟩ := by
  have hk : k - 1 < S.length := by omega
  unfold pausedAtK
  rw [startState_eq, runPlain_running S (k - 1) 0 (by omega) [] [] 1]
  simp only [List.drop_zero, Nat.zero_add]
  rw [repeatStep_pause_val (genOfList S) (k - 1) (S[k - 1])
    (genOfList_val S (k - 1) hk) _ [] 1]
  have hk1 : k - 1 + 1 = k := by omega
  have htake : S.take (k - 1) ++ [S[k - 1]] = S.take k := by
    conv_rhs => rw [← hk1]
    rw [List.take_succ, List.getElem?_eq_getElem hk]
    rfl
  rw [hk1, ← htake, List.map_append]
  simp

/-- C2: if pause() is issued from within the delivery callback of the k-th
delivered event, the delivered prefix at that point is exactly the first k
events of S with nothing lost and nothing duplicated, the stream has not
ended, no loop iteration stays scheduled, and no further event is delivered
no matter how many iterations elapse or how often pause() is repeated, until
resume() is issued, after which the remaining events and the termination
signal are delivered in order. -/
theorem C2_pause_in_callback_withholds_only_next {A : Type} (S : List A)
    (k : Nat) (h1 : 1 ≤ k) (h2 : k ≤ S.length) :
    (pausedAtK S k).delivered = (S.take k).map Ev.val
  ∧ (pausedAtK S k).pending = 0
  ∧ (pausedAtK S k).hasEnded = false
  ∧ (∀ n, runPlain (genOfList S) n (pausedAtK S k) = pausedAtK S k)
  ∧ (∀ cmds, repeatStep (genOfList S) cmds (pausedAtK S k) = pausedAtK S k)
  ∧ onPauseValue (pausedAtK S k) true = pausedAtK S k
  ∧ (runPlain (genOfList S) (S.length - k + 1)
        (onPauseValue (pausedAtK S k) false)).delivered
      = S.map Ev.val ++ [Ev.endEv] := by
  have he := pausedAtK_eq S k h1 h2
  refine ⟨by rw [he], by rw [he], by rw [he], ?_, ?_, ?_, ?_⟩
  · intro n
    exact runPlain_fix (genOfList S) (by rw [he]) n
  · intro cmds
    exact repeatStep_pending_zero (genOfList S) cmds (by rw [he])
  · exact onPauseValue_noop (by rw [he])
  · have hres : onPauseValue (pausedAtK S k) false =
        ⟨some false, false, k, 1, (S.take k).map Ev.val, [], 1⟩ := by
      rw [he]; simp [onPauseValue]
    rw [hres, runPlain_toEnd S k h2 _ [] 1]
    rw [← List.append_assoc, ← List.map_append, List.take_append_drop]

theorem C2_witness :
    (pausedAtK [5, 6, 7] 2).delivered = ([5, 6, 7].take 2).map Ev.val :=
  (C2_pause_in_callback_withholds_only_next [5, 6, 7] 2 (by decide) (by decide)).1

/- ------------------------------------------------------------------ -/
/- C6: number of concurrently active pump loops.                      -/
/- ------------------------------------------------------------------ -/

/-- C6 counterexample: an effective pause() immediately followed by an
effective resume(), both issued from within the delivery callback of the
first event while the current iteration is still executing, leaves TWO
scheduled loop iterations: the resume handler starts a fresh
repeatUntilPaused chain, and when the delivery callback returns, the old
iteration sees !paused && !hasEnded and also reschedules itself.  Both chains
then keep running: after two further microtasks the producer has been pulled
three times and two iterations are still scheduled, refuting the claim that
no pause()/resume() sequence ever yields two concurrent pump loops. -/
theorem C6_counterexample :
    (repeatStep (genOfList [0, 1, 2, 3, 4]) [true, false] (startState Nat)).pending = 2
  ∧ (runPlain (genOfList [0, 1, 2, 3, 4]) 2
      (repeatStep (genOfList [0, 1, 2, 3, 4]) [true, false] (startState Nat))).pending = 2
  ∧ (runPlain (genOfList [0, 1, 2, 3, 4]) 2
      (repeatStep (genOfList [0, 1, 2, 3, 4]) [true, false] (startState Nat))).pullCount = 3
  := by decide

/-- C6 amended: duplicate pause()/resume() calls whose value is unchanged are
complete no-ops and never start a loop; a single handler invocation schedules
at most one new loop iteration, and never does so for a pause value or after
the stream has ended.  (A loop is started exactly on an effective transition
to unpaused before the end; the counterexample above shows that an effective
pause followed by an effective resume while an iteration is pending does
leave two concurrently scheduled loops.) -/
theorem C6_amended_dedup_starts_at_most_one_loop {A : Type}
    (s : PumpState A) (b : Bool) :
    (s.paused = some b → onPauseValue s b = s)
  ∧ (onPauseValue s b).pending ≤ s.pending + 1
  ∧ ((b = true ∨ s.hasEnded = true) → (onPauseValue s b).pending = s.pending) := by
  refine ⟨fun h => onPauseValue_noop h, ?_, ?_⟩
  · by_cases h : s.paused = some b
    · rw [onPauseValue_noop h]; omega
    · simp only [onPauseValue, if_neg h]
      split
      · simp
      · simp
  · intro hbe
    by_cases h : s.paused = some b
    · rw [onPauseValue_noop h]
    · rcases hbe with rfl | he
      · simp [onPauseValue, h]
      · simp [onPauseValue, h, he]

theorem C6_witness :
    onPauseValue (⟨some true, false, 0, 1, [], [], 1⟩ : PumpState Nat) true
      = ⟨some true, false, 0, 1, [], [], 1⟩ :=
  (C6_amended_dedup_starts_at_most_one_loop
    (⟨some true, false, 0, 1, [], [], 1⟩ : PumpState Nat) true).1 rfl

/- ------------------------------------------------------------------ -/
/- C8: a pull that raises.                                            -/
/- ------------------------------------------------------------------ -/

/-- A callback producer whose every call raises an exception. -/
def genCrash : Nat → GenRes Nat := fun _ => GenRes.thrown

/-- C8 counterexample: when the first pull raises, nothing is ever pushed to
the stream error channel (the source has no catch handler and never
constructs a Bacon.Error, so the rejection is unobservable through the
stream), nothing is delivered and the chain stops; and pulling is NOT halted
for good: since the crash neither latches the ended flag nor the pause flag,
a subsequent effective pause() plus resume() starts a new chain whose next
iteration pulls the producer again.  This refutes both the claim that the
error is observable via the error subscription and the claim that no further
pulls ever occur. -/
theorem C8_counterexample :
    (repeatStep genCrash [] (startState Nat)).errors = []
  ∧ (repeatStep genCrash [] (startState Nat)).delivered = []
  ∧ (repeatStep genCrash [] (startState Nat)).pending = 0
  ∧ (runActs genCrash (repeatStep genCrash [] (startState Nat))
      [Act.cmd true, Act.cmd false, Act.iter []]).pullCount = 2 := by decide

/-- C8 amended: when a pull raises, the executing iteration aborts after the
producer call: the event loop chain does not reschedule itself and the core
attempts no retry, nothing is delivered, and the error is NOT propagated to
the stream error channel (it is lost as an unhandled promise rejection);
the ended flag is not latched either. -/
theorem C8_amended_throw_halts_chain_silently {A : Type}
    (gen : Nat → GenRes A) (cmds : List Bool) (s : PumpState A)
    (hg : gen s.pullCount = GenRes.thrown) (hp : s.pending ≠ 0) :
    (repeatStep gen cmds s).errors = s.errors
  ∧ (repeatStep gen cmds s).delivered = s.delivered
  ∧ (repeatStep gen cmds s).pending = s.pending - 1
  ∧ (repeatStep gen cmds s).pullCount = s.pullCount + 1
  ∧ (repeatStep gen cmds s).hasEnded = s.hasEnded := by
  simp [repeatStep, hp, hg]

theorem C8_witness :
    (repeatStep genCrash [] (startState Nat)).delivered
      = (startState Nat).delivered :=
  (C8_amended_throw_halts_chain_silently genCrash [] (startState Nat)
    rfl (by decide)).2.1

/- ------------------------------------------------------------------ -/
/- C9: the trampoline performs one pull per scheduled task.           -/
/- ------------------------------------------------------------------ -/

theorem repeatStep_plain_bounds {A : Type} (gen : Nat → GenRes A)
    (s : PumpState A) :
    (repeatStep gen [] s).pullCount ≤ s.pullCount + 1
  ∧ (repeatStep gen [] s).pending ≤ s.pending
  ∧ (repeatStep gen [] s).delivered.length ≤ s.delivered.length + 1 := by
  by_cases hp : s.pending = 0
  · rw [repeatStep_pending_zero gen [] hp]
    omega
  · unfold repeatStep
    rw [if_neg hp]
    cases hgen : gen s.pullCount with
    | thrown => simp
    | val v =>
        simp only [forwardEvent, List.foldl_nil]
        split <;> (simp; try omega)
    | endEv =>
        simp only [forwardEvent, List.foldl_nil]
        split <;> (simp; try omega)

theorem runPlain_pullCount_le {A : Type} (gen : Nat → GenRes A) :
    ∀ (n : Nat) (s : PumpState A),
    (runPlain gen n s).pullCount ≤ s.pullCount + n
  | 0, _ => le_refl _
  | n + 1, s => by
      rw [runPlain_succ]
      have h1 := runPlain_pullCount_le gen n (repeatStep gen [] s)
      have h2 := (repeatStep_plain_bounds gen s).1
      omega

/-- C9: the pump loop is the iterated application of the single,
non-recursive step repeatStep: each scheduled task performs at most one pull
of the producer and delivers at most one event, a task never runs a second
iteration inline but only increments the count of queued tasks, a task runs
only when one is queued (exactly one pull then happens), and n scheduled
tasks perform at most n pulls in total.  The reschedule is a queue insertion,
never a nested call, which is the O(1) stack discipline of the source
trampoline built from Promise.resolve().then. -/
theorem C9_trampoline_one_pull_per_task {A : Type} (gen : Nat → GenRes A)
    (s : PumpState A) :
    (repeatStep gen [] s).pullCount ≤ s.pullCount + 1
  ∧ (repeatStep gen [] s).pending ≤ s.pending
  ∧ (repeatStep gen [] s).delivered.length ≤ s.delivered.length + 1
  ∧ (s.pending = 0 → repeatStep gen [] s = s)
  ∧ (s.pending ≠ 0 → (repeatStep gen [] s).pullCount = s.pullCount + 1)
  ∧ (∀ n, (runPlain gen n s).pullCount ≤ s.pullCount + n) := by
  obtain ⟨h1, h2, h3⟩ := repeatStep_plain_bounds gen s
  refine ⟨h1, h2, h3, fun hp => repeatStep_pending_zero gen [] hp, ?_,
    fun n => runPlain_pullCount_le gen n s⟩
  intro hp
  unfold repeatStep
  rw [if_neg hp]
  cases hgen : gen s.pullCount with
  | thrown => rfl
  | val v =>
      simp only [forwardEvent, List.foldl_nil]
      split <;> rfl
  | endEv =>
      simp only [forwardEvent, List.foldl_nil]
      split <;> rfl

theorem C9_witness :
    (repeatStep (genOfList [7]) [] (startState Nat)).pullCount
      = (startState Nat).pullCount + 1 :=
  (C9_trampoline_one_pull_per_task (genOfList [7]) (startState Nat)).2.2.2.2.1
    (by decide)

/- ------------------------------------------------------------------ -/
/- C10: the loop never consults the subscriber set.                   -/
/- ------------------------------------------------------------------ -/

/-- Overwrite the framework-side subscriber count; unsubscribing every
subscriber is setSubscribers s 0. -/
def setSubscribers {A : Type} (s : PumpState A) (m : Nat) : PumpState A :=
  { s with subscribers := m }

/-- The binder arrow function passed to Bacon.fromBinder at source lines 59
to 89 ends without a return statement, so no unsubscribe or teardown action
is ever registered with the stream framework. -/
def binderRegistersTeardown : Bool := false

theorem onPauseValue_setSubscribers {A : Type} (s : PumpState A) (b : Bool)
    (m : Nat) :
    onPauseValue (setSubscribers s m) b = setSubscribers (onPauseValue s b) m := by
  unfold onPauseValue setSubscribers
  by_cases h : s.paused = some b
  · simp [h]
  · simp only [h, if_neg, ite_false]
    split <;> rfl

theorem foldl_onPauseValue_setSubscribers {A : Type} (cmds : List Bool) :
    ∀ (s : PumpState A) (m : Nat),
    cmds.foldl onPauseValue (setSubscribers s m)
      = setSubscribers (cmds.foldl onPauseValue s) m := by
  induction cmds with
  | nil => intro s m; rfl
  | cons c rest ih =>
      intro s m
      simp only [List.foldl_cons, onPauseValue_setSubscribers, ih]

theorem forwardEvent_setSubscribers {A : Type} (s : PumpState A) (ev : Ev A)
    (cmds : List Bool) (m : Nat) :
    forwardEvent (setSubscribers s m) ev cmds
      = setSubscribers (forwardEvent s ev cmds) m := by
  unfold forwardEvent
  rw [show ({ (setSubscribers s m) with
                hasEnded := (setSubscribers s m).hasEnded || ev.isEnd,
                delivered := (setSubscribers s m).delivered ++ [ev] } : PumpState A)
      = setSubscribers { s with
                          hasEnded := s.hasEnded || ev.isEnd,
                          delivered := s.delivered ++ [ev] } m from rfl]
  simp only [foldl_onPauseValue_setSubscribers]
  dsimp only [setSubscribers]
  split <;> rfl

theorem repeatStep_setSubscribers {A : Type} (gen : Nat → GenRes A)
    (cmds : List Bool) (s : PumpState A) (m : Nat) :
    repeatStep gen cmds (setSubscribers s m)
      = setSubscribers (repeatStep gen cmds s) m := by
  by_cases hp : s.pending = 0
  · rw [repeatStep_pending_zero gen cmds hp,
      repeatStep_pending_zero gen cmds (show (setSubscribers s m).pending = 0 from hp)]
  · unfold repeatStep
    rw [if_neg hp, if_neg (show ¬(setSubscribers s m).pending = 0 from hp)]
    have hpc : (setSubscribers s m).pullCount = s.pullCount := rfl
    rw [hpc]
    cases hgen : gen s.pullCount with
    | thrown => rfl
    | val v =>
        rw [show ({ (setSubscribers s m) with
                      pending := (setSubscribers s m).pending - 1,
                      pullCount := s.pullCount + 1 } : PumpState A)
            = setSubscribers { s with
                                pending := s.pending - 1,
                                pullCount := s.pullCount + 1 } m from rfl]
        exact forwardEvent_setSubscribers _ _ _ _
    | endEv =>
        rw [show ({ (setSubscribers s m) with
                      pending := (setSubscribers s m).pending - 1,
                      pullCount := s.pullCount + 1 } : PumpState A)
            = setSubscribers { s with
                                pending := s.pending - 1,
                                pullCount := s.pullCount + 1 } m from rfl]
        exact forwardEvent_setSubscribers _ _ _ _

theorem stepAct_setSubscribers {A : Type} (gen : Nat → GenRes A)
    (s : PumpState A) (m : Nat) (a : Act) :
    stepAct gen (setSubscribers s m) a = setSubscribers (stepAct gen s a) m := by
  cases a with
  | cmd b => exact onPauseValue_setSubscribers s b m
  | iter cmds => exact repeatStep_setSubscribers gen cmds s m

/-- C10: whether the pump continues depends only on the pause and ended
flags, never on the subscriber set: the binder registers no teardown action,
and running any interleaving of commands and loop iterations commutes with
arbitrarily changing the subscriber count.  In particular removing every
subscriber (count zero) changes neither the pulls performed nor the events
forwarded: the producer keeps being pulled until pause() is called or the
end sentinel is produced. -/
theorem C10_pump_ignores_subscribers {A : Type} (gen : Nat → GenRes A)
    (acts : List Act) (s : PumpState A) (m : Nat) :
    binderRegistersTeardown = false
  ∧ runActs gen (setSubscribers s m) acts = setSubscribers (runActs gen s acts) m
  ∧ (runActs gen (setSubscribers s 0) acts).pullCount
      = (runActs gen s acts).pullCount
  ∧ (runActs gen (setSubscribers s 0) acts).delivered
      = (runActs gen s acts).delivered := by
  have key : ∀ (acts : List Act) (s : PumpState A) (m : Nat),
      runActs gen (setSubscribers s m) acts
        = setSubscribers (runActs gen s acts) m := by
    intro acts
    induction acts with
    | nil => intro s m; rfl
    | cons a rest ih =>
        intro s m
        rw [runActs_cons, stepAct_setSubscribers, ih, runActs_cons]
  refine ⟨rfl, key acts s m, ?_, ?_⟩
  · rw [key acts s 0]; rfl
  · rw [key acts s 0]; rfl

/- ------------------------------------------------------------------ -/
/- C4: the construction-time producer check.                          -/
/- ------------------------------------------------------------------ -/

/-- Shapes a caller might pass as the producer argument.  callback is a plain
zero-argument function; generatorFunction is a generator function that has
not been invoked (calling it would produce an iterator); iteratorObject is an
already-created iterator object exposing a next operation. -/
inductive ProducerShape where
  | callback
  | generatorFunction
  | iteratorObject
  | plainObject
  | array
deriving DecidableEq, Repr

/-- JS typeof semantics for each shape: both plain functions and
not-yet-invoked generator functions have typeof equal to the string function,
while iterator objects, plain objects and arrays have typeof object. -/
def typeofIsFunction : ProducerShape → Bool
  | .callback => true
  | .generatorFunction => true
  | .iteratorObject => false
  | .plainObject => false
  | .array => false

/-- Outcome of calling createPausableStream with a producer of a given
shape. -/
inductive ConstructionResult where
  | created
  | invalidProducerError
deriving DecidableEq, Repr

/-- The validation at source lines 41 to 45: the first statement of
createPausableStream throws (with message generatorFunction is not a
function) whenever typeof of the argument is not function, before any stream
state is created and before any pull; otherwise construction proceeds. -/
def createPausableStreamCheck (p : ProducerShape) : ConstructionResult :=
  if typeofIsFunction p then .created else .invalidProducerError

/-- C4 counterexample: the claim says an iterator-shaped object is accepted
and a not-yet-invoked generator function is rejected; the source does exactly
the opposite, since its only check is typeof producer being function: an
iterator object fails construction and a generator function passes it. -/
theorem C4_counterexample :
    createPausableStreamCheck ProducerShape.iteratorObject
        = ConstructionResult.invalidProducerError
  ∧ createPausableStreamCheck ProducerShape.generatorFunction
        = ConstructionResult.created := ⟨rfl, rfl⟩

/-- C4 amended: construction succeeds exactly when typeof of the producer is
function: a zero-argument callback and also a not-yet-invoked generator
function are accepted, while an iterator-shaped object, a plain object and an
array are rejected synchronously at construction time, before any pull and
without creating a stream.  (The repository test suite expects the opposite
polarity for functions versus iterator objects; those tests belong to an
iterator-producer variant whose source is not the index.js under src.) -/
theorem C4_amended_typeof_gate :
    createPausableStreamCheck ProducerShape.callback = ConstructionResult.created
  ∧ createPausableStreamCheck ProducerShape.generatorFunction
      = ConstructionResult.created
  ∧ createPausableStreamCheck ProducerShape.iteratorObject
      = ConstructionResult.invalidProducerError
  ∧ createPausableStreamCheck ProducerShape.plainObject
      = ConstructionResult.invalidProducerError
  ∧ createPausableStreamCheck ProducerShape.array
      = ConstructionResult.invalidProducerError
  ∧ ∀ p, createPausableStreamCheck p = ConstructionResult.created
      ↔ typeofIsFunction p = true := by
  refine ⟨rfl, rfl, rfl, rfl, rfl, ?_⟩
  intro p
  cases p <;> simp [createPausableStreamCheck, typeofIsFunction]

/- ------------------------------------------------------------------ -/
/- C5: a producer that returns undefined.                             -/
/- ------------------------------------------------------------------ -/

/-- A JS value as seen by pauseSink: the undefined value, an ordinary value
on which property access is legal, or a Bacon.End instance. -/
inductive JsVal (A : Type) where
  | undef
  | val (v : A)
  | endObj
deriving DecidableEq, Repr

/-- A JS exception relevant here. -/
inductive JsError where
  | typeError
deriving DecidableEq, Repr

/-- State owned by pauseSink: the hasEnded flag and the events passed on to
the Bacon sink. -/
structure SinkState (A : Type) where
  hasEnded : Bool
  sunk : List (JsVal A)
deriving DecidableEq, Repr

/-- The guard expression streamEvent.isEnd && streamEvent.isEnd() from source
line 66 under JS semantics: reading the isEnd property of the undefined value
throws a TypeError; on an ordinary value the property is absent, hence falsy;
on a Bacon.End instance the method exists and returns true. -/
def jsIsEndCheck {A : Type} : JsVal A → Except JsError Bool
  | .undef => .error JsError.typeError
  | .val _ => .ok false
  | .endObj => .ok true

/-- pauseSink from source lines 62 to 71: evaluate the end guard (which can
throw), latch hasEnded, then pass the event to the sink.  When the guard
throws, the exception propagates out of pauseSink before sink is called, so
nothing is forwarded. -/
def pauseSinkJs {A : Type} (s : SinkState A) (streamEvent : JsVal A) :
    Except JsError (SinkState A) :=
  match jsIsEndCheck streamEvent with
  | .error e => .error e
  | .ok isEnd => .ok ⟨s.hasEnded || isEnd, s.sunk ++ [streamEvent]⟩

/-- C5 evaluated at the failing input: when the callback producer returns the
undefined value, the forwarding step raises a TypeError (reading isEnd of
undefined) instead of forwarding a legal ordinary event, so the iteration
dies as an unhandled rejection and the value is never delivered; an ordinary
value by contrast is forwarded without ending the stream.  This contradicts
the claim (and the repository README, which promises an undefined event
followed by the end of the stream), so the code is the bug. -/
theorem C5_undefined_event_raises_typeError :
    pauseSinkJs (⟨false, []⟩ : SinkState Nat) JsVal.undef
        = Except.error JsError.typeError
  ∧ pauseSinkJs (⟨false, []⟩ : SinkState Nat) (JsVal.val 3)
        = Except.ok ⟨false, [JsVal.val 3]⟩
  ∧ pauseSinkJs (⟨false, []⟩ : SinkState Nat) JsVal.endObj
        = Except.ok ⟨true, [JsVal.endObj]⟩ :=
  ⟨rfl, rfl, rfl⟩

end BaconPausable
